import Mathlib

/-!
Shallow embedding of igolaizola/websocket-proxy-sniffer (src/main.go).

The program wraps an HTTP server's hijacked connections in a tee:
`TeeConn` forwards reads through Go's `io.TeeReader(conn, in)` and writes
through `io.MultiWriter(conn, out)`; `callbackHijacker.Hijack` allocates two
`io.Pipe`s, invokes the observer callback with their read ends and returns a
`TeeConn` whose sinks are the write ends; `sniffer.ServeHTTP` wraps the
response writer through `CallbackHijacker` before delegating to the handler.

The embedding models byte streams as lists of naturals, `io.Writer`s and
`net.Conn`s as deterministic scripted state machines, and the hijack path as
a state machine emitting an explicit event trace in program order.  The
semantics of `io.TeeReader`, `io.MultiWriter` and `io.Pipe` are transcribed
from the Go standard library, since `TeeConn`'s behaviour is exactly theirs.
-/

namespace WsSniffer

/-- A byte stream, each byte a natural number. -/
abbrev Bytes := List Nat

/-- Stream-level error conditions: end of stream, Go's `io.ErrShortWrite`,
`io.ErrClosedPipe`, or an arbitrary error identified by a numeric code. -/
inductive StreamErr where
  | eofErr
  | shortWrite
  | closedPipe
  | errCode (k : Nat)
deriving DecidableEq, Repr

/-- One scripted response of a modelled `io.Writer`: either accept the whole
buffer, or accept the first `n` bytes of it and report the given error.  A
`part n none` response with `n` short of the buffer length models a short
write that reports no error. -/
inductive WResp where
  | accept
  | part (n : Nat) (e : Option StreamErr)
deriving DecidableEq, Repr

/-- State of a modelled `io.Writer` sink: the remaining response script and
the bytes accepted so far.  An exhausted script accepts every write in
full. -/
structure WState where
  script : List WResp
  sunk : Bytes
deriving DecidableEq, Repr

/-- `Write` on the modelled sink: consume the next scripted response, append
the accepted bytes, and return the accepted count and the error. -/
def wWrite (s : WState) (p : Bytes) : WState × Nat × Option StreamErr :=
  match s.script with
  | [] => ({ s with sunk := s.sunk ++ p }, p.length, none)
  | .accept :: rest => ({ script := rest, sunk := s.sunk ++ p }, p.length, none)
  | .part n e :: rest =>
      let k := min n p.length
      ({ script := rest, sunk := s.sunk ++ p.take k }, k, e)

/-- State of the modelled `net.Conn`: a script of read results, a script of
write responses, the bytes its write side has accepted (the bytes actually
transmitted on the socket), a closed flag, the error `Close` reports, local
and remote addresses, read and write deadlines, and the error the deadline
setters report. -/
structure ConnState where
  rscript : List (Bytes × Option StreamErr)
  wscript : List WResp
  written : Bytes
  closed : Bool
  closeErr : Option StreamErr
  localA : Nat
  remoteA : Nat
  rdl : Nat
  wdl : Nat
  dlErr : Option StreamErr
deriving DecidableEq, Repr

/-- `net.Conn.Read`: pop the next scripted result, truncated to the buffer
capacity; an exhausted script reports end of stream. -/
def connRead (c : ConnState) (cap : Nat) : ConnState × Bytes × Option StreamErr :=
  match c.rscript with
  | [] => (c, [], some .eofErr)
  | (b, e) :: rest => ({ c with rscript := rest }, b.take cap, e)

/-- `net.Conn.Write`: consume the next scripted write response and append the
accepted bytes to the transmitted trace. -/
def connWrite (c : ConnState) (p : Bytes) : ConnState × Nat × Option StreamErr :=
  match c.wscript with
  | [] => ({ c with written := c.written ++ p }, p.length, none)
  | .accept :: rest =>
      ({ c with wscript := rest, written := c.written ++ p }, p.length, none)
  | .part n e :: rest =>
      let k := min n p.length
      ({ c with wscript := rest, written := c.written ++ p.take k }, k, e)

/-- `net.Conn.Close`. -/
def connClose (c : ConnState) : ConnState × Option StreamErr :=
  ({ c with closed := true }, c.closeErr)

/-- `net.Conn.LocalAddr`. -/
def connLocalAddr (c : ConnState) : Nat := c.localA

/-- `net.Conn.RemoteAddr`. -/
def connRemoteAddr (c : ConnState) : Nat := c.remoteA

/-- `net.Conn.SetDeadline`. -/
def connSetDeadline (c : ConnState) (d : Nat) : ConnState × Option StreamErr :=
  ({ c with rdl := d, wdl := d }, c.dlErr)

/-- `net.Conn.SetReadDeadline`. -/
def connSetReadDeadline (c : ConnState) (d : Nat) : ConnState × Option StreamErr :=
  ({ c with rdl := d }, c.dlErr)

/-- `net.Conn.SetWriteDeadline`. -/
def connSetWriteDeadline (c : ConnState) (d : Nat) : ConnState × Option StreamErr :=
  ({ c with wdl := d }, c.dlErr)

/-- State of the `teeConn` built by `TeeConn conn in out`: the underlying
connection plus the two sinks (in the real program the write ends of the two
pipes; here generic modelled writers). -/
structure TeeState where
  conn : ConnState
  inS : WState
  outS : WState
deriving DecidableEq, Repr

/-- `teeConn.Read`, i.e. `io.TeeReader(conn, in).Read`: delegate to the
connection's `Read`; when at least one byte arrived, write exactly those
bytes to the inbound sink; if that sink write reports an error, return the
sink's count and error in place of the read's (the Go source shadows `n, err`
with the write's results), otherwise return the read's count and error. -/
def teeRead (t : TeeState) (cap : Nat) : TeeState × Bytes × Nat × Option StreamErr :=
  let r := connRead t.conn cap
  let chunk := r.2.1
  if chunk.length > 0 then
    let w := wWrite t.inS chunk
    match w.2.2 with
    | some e => ({ t with conn := r.1, inS := w.1 }, chunk, w.2.1, some e)
    | none => ({ t with conn := r.1, inS := w.1 }, chunk, chunk.length, r.2.2)
  else ({ t with conn := r.1 }, chunk, 0, r.2.2)

/-- `teeConn.Write`, i.e. `io.MultiWriter(conn, out).Write`: write to the
connection first; on an error or a short count stop and return (the sink is
not written); otherwise write the same buffer to the outbound sink and return
its error or short-write condition, or full success. -/
def teeWrite (t : TeeState) (p : Bytes) : TeeState × Nat × Option StreamErr :=
  let r := connWrite t.conn p
  match r.2.2 with
  | some e => ({ t with conn := r.1 }, r.2.1, some e)
  | none =>
      if r.2.1 < p.length then ({ t with conn := r.1 }, r.2.1, some .shortWrite)
      else
        let w := wWrite t.outS p
        match w.2.2 with
        | some e => ({ t with conn := r.1, outS := w.1 }, w.2.1, some e)
        | none =>
            if w.2.1 < p.length then
              ({ t with conn := r.1, outS := w.1 }, w.2.1, some .shortWrite)
            else ({ t with conn := r.1, outS := w.1 }, p.length, none)

/-- `teeConn.Close`: promoted from the embedded `net.Conn`, so it delegates
unchanged; the sinks are untouched. -/
def teeClose (t : TeeState) : TeeState × Option StreamErr :=
  let r := connClose t.conn
  ({ t with conn := r.1 }, r.2)

/-- `teeConn.LocalAddr`: promoted from the embedded `net.Conn`. -/
def teeLocalAddr (t : TeeState) : Nat := connLocalAddr t.conn

/-- `teeConn.RemoteAddr`: promoted from the embedded `net.Conn`. -/
def teeRemoteAddr (t : TeeState) : Nat := connRemoteAddr t.conn

/-- `teeConn.SetDeadline`: promoted from the embedded `net.Conn`. -/
def teeSetDeadline (t : TeeState) (d : Nat) : TeeState × Option StreamErr :=
  let r := connSetDeadline t.conn d
  ({ t with conn := r.1 }, r.2)

/-- `teeConn.SetReadDeadline`: promoted from the embedded `net.Conn`. -/
def teeSetReadDeadline (t : TeeState) (d : Nat) : TeeState × Option StreamErr :=
  let r := connSetReadDeadline t.conn d
  ({ t with conn := r.1 }, r.2)

/-- `teeConn.SetWriteDeadline`: promoted from the embedded `net.Conn`. -/
def teeSetWriteDeadline (t : TeeState) (d : Nat) : TeeState × Option StreamErr :=
  let r := connSetWriteDeadline t.conn d
  ({ t with conn := r.1 }, r.2)

/-- One read or write operation performed by the handler through the wrapped
connection. -/
inductive Op where
  | read (cap : Nat)
  | write (p : Bytes)
deriving DecidableEq, Repr

/-- Run a sequence of reads and writes through the tee wrapper, threading the
wrapper state. -/
def runTee : List Op → TeeState → TeeState
  | [], t => t
  | .read cap :: ops, t => runTee ops (teeRead t cap).1
  | .write p :: ops, t => runTee ops (teeWrite t p).1

/-- The bytes the underlying connection's reads deliver along a run of
operations (a write advances the connection's write script but delivers no
read bytes). -/
def readTrace : List Op → ConnState → Bytes
  | [], _ => []
  | .read cap :: ops, c =>
      let r := connRead c cap
      r.2.1 ++ readTrace ops r.1
  | .write p :: ops, c => readTrace ops (connWrite c p).1

/-- The concatenation of the buffers passed to the write operations of a
run. -/
def writePayloads : List Op → Bytes
  | [] => []
  | .read _ :: ops => writePayloads ops
  | .write p :: ops => p ++ writePayloads ops

/-- An `io.Pipe`'s shared state: the bytes written but not yet consumed,
and whether each end has been closed. -/
structure PipeState where
  buf : Bytes
  wclosed : Bool
  rclosed : Bool
deriving DecidableEq, Repr

/-- A freshly allocated pipe, as built by `io.Pipe()`: empty, both ends
open. -/
def freshPipe : PipeState := { buf := [], wclosed := false, rclosed := false }

/-- Outcome of a `Read` on a pipe's read end: some bytes, end of stream
(write end closed, buffer drained), or the call blocks because the buffer is
empty and the write end is still open. -/
inductive PipeReadOutcome where
  | bytes (b : Bytes)
  | eofEnd
  | blocked
deriving DecidableEq, Repr

/-- `PipeReader.Read`: deliver buffered bytes if any; report end of stream
once the write end is closed and the buffer drained; otherwise block. -/
def pipeRead (p : PipeState) (cap : Nat) : PipeState × PipeReadOutcome :=
  if p.buf = [] then
    if p.wclosed then (p, .eofEnd) else (p, .blocked)
  else ({ p with buf := p.buf.drop cap }, .bytes (p.buf.take cap))

/-- `PipeWriter.Write`: fails with `io.ErrClosedPipe` once either end is
closed; otherwise accepts the whole buffer. -/
def pipeWrite (p : PipeState) (b : Bytes) : PipeState × Nat × Option StreamErr :=
  if p.wclosed || p.rclosed then (p, 0, some .closedPipe)
  else ({ p with buf := p.buf ++ b }, b.length, none)

/-- What the wrapped `http.Hijacker`'s own `Hijack` call returns: a
connection, a `*bufio.ReadWriter` (modelled as a tag), and an optional
error. -/
structure UnderHijack where
  conn : ConnState
  buf : Nat
  err : Option StreamErr
deriving DecidableEq, Repr

/-- Observable events of `callbackHijacker.Hijack`, recorded in program
order: the underlying hijack call, pipe allocation, the observer callback
invocation (with the request and the read ends it receives, identified by
pipe index), and the return (error path or wrapped-connection path). -/
inductive HEvent where
  | underCalled
  | pipesAllocated (idIn idOut : Nat)
  | callbackInvoked (req : Nat) (idIn idOut : Nat)
  | returnedErr (e : StreamErr)
  | returnedConn (idIn idOut : Nat)
deriving DecidableEq, Repr

/-- Per-hijack session state: the pipes allocated so far (indexed by
position) and the event trace. -/
structure HSession where
  pipes : List PipeState
  events : List HEvent
deriving DecidableEq, Repr

/-- The wrapped connection returned by a successful `Hijack`: the underlying
connection together with the indices of the two pipes whose write ends are
its inbound and outbound sinks (the observer holds the read ends of the same
pipes). -/
structure TeeId where
  conn : ConnState
  pinId : Nat
  poutId : Nat
deriving DecidableEq, Repr

/-- Result of a hijack through the model: the underlying call's triple
passed through on failure, a tee-wrapped connection from
`callbackHijacker.Hijack`, or a raw connection from hijacking an unwrapped
`http.Hijacker` directly. -/
inductive HijackRes where
  | failed (conn : ConnState) (buf : Nat) (e : StreamErr)
  | okTee (w : TeeId) (buf : Nat)
  | okRaw (conn : ConnState) (buf : Nat)
deriving DecidableEq, Repr

/-- `callbackHijacker.Hijack`: perform the underlying hijack; on error return
its connection, buffer and error unchanged; on success allocate two fresh
pipes, invoke the callback with the request and the pipes' read ends, then
return `TeeConn(conn, wIn, wOut)` with the same pipes' write ends as sinks.
Events are appended in the order the Go statements execute. -/
def hijack (req : Nat) (u : UnderHijack) (s : HSession) : HSession × HijackRes :=
  let s1 : HSession := { s with events := s.events ++ [.underCalled] }
  match u.err with
  | some e =>
      ({ s1 with events := s1.events ++ [.returnedErr e] }, .failed u.conn u.buf e)
  | none =>
      let idIn := s1.pipes.length
      let idOut := s1.pipes.length + 1
      let s2 : HSession :=
        { pipes := s1.pipes ++ [freshPipe, freshPipe],
          events := s1.events ++ [.pipesAllocated idIn idOut] }
      let s3 : HSession := { s2 with events := s2.events ++ [.callbackInvoked req idIn idOut] }
      ({ s3 with events := s3.events ++ [.returnedConn idIn idOut] },
       .okTee { conn := u.conn, pinId := idIn, poutId := idOut } u.buf)

/-- State of a tee wrapper whose sinks are the write ends of two pipes, as
installed by `Hijack` (the pipes carried by value). -/
structure TeePipeState where
  conn : ConnState
  pin : PipeState
  pout : PipeState
deriving DecidableEq, Repr

/-- `teeConn.Close` on the pipe-sink wrapper: promoted from the embedded
`net.Conn`, so only the underlying connection is closed; neither pipe's
write end is touched. -/
def teePipeClose (t : TeePipeState) : TeePipeState × Option StreamErr :=
  let r := connClose t.conn
  ({ t with conn := r.1 }, r.2)

/-- A response writer: a plain one without the `http.Hijacker` capability,
one that also implements `http.Hijacker` (carrying what its `Hijack`
returns), or the `callbackHijacker` wrapper produced by `CallbackHijacker`
(which itself has a `Hijack` method). -/
inductive RW where
  | plain (id : Nat)
  | hijackable (id : Nat) (u : UnderHijack)
  | wrapped (inner : RW) (req : Nat)
deriving DecidableEq, Repr

/-- Go's `w.(http.Hijacker)` type assertion: whether the response writer
implements `http.Hijacker`. The `callbackHijacker` wrapper defines a
`Hijack` method, so it does. -/
def supportsHijack : RW → Bool
  | .plain _ => false
  | .hijackable _ _ => true
  | .wrapped _ _ => true

/-- `CallbackHijacker w r cb`: wrap `w` only when the type assertion
succeeds; otherwise return `w` unchanged.  The callback is ambient in the
model (its invocations are the `callbackInvoked` events). -/
def CallbackHijacker (w : RW) (req : Nat) : RW :=
  if supportsHijack w then .wrapped w req else w

/-- The `UnderHijack` a response writer's hijack would delegate to, when the
capability is present; the wrapper delegates to the writer it wraps. -/
def underHijackOf : RW → Option UnderHijack
  | .plain _ => none
  | .hijackable _ u => some u
  | .wrapped inner _ => underHijackOf inner

/-- A handler calling `Hijack` on its response writer: impossible on a plain
writer; on a bare `http.Hijacker` the underlying triple is returned with no
tap and no events; on the wrapper, `callbackHijacker.Hijack` runs. -/
def rwHijack (w : RW) (s : HSession) : HSession × Option HijackRes :=
  match w with
  | .plain _ => (s, none)
  | .hijackable _ u =>
      match u.err with
      | some e => (s, some (.failed u.conn u.buf e))
      | none => (s, some (.okRaw u.conn u.buf))
  | .wrapped inner req =>
      match underHijackOf inner with
      | none => (s, none)
      | some u =>
          let r := hijack req u s
          (r.1, some r.2)

/-- The actions a handler may take against its response writer. -/
inductive HAction where
  | writeBody (b : Bytes)
  | doHijack
deriving DecidableEq, Repr

/-- State visible to a request's handler run: the hijack session (pipes and
events) and the response body accumulated so far. -/
structure ServeState where
  session : HSession
  body : Bytes
deriving DecidableEq, Repr

/-- Writing the response body through a writer: the wrapper delegates to its
embedded response writer unchanged. -/
def rwWriteBody (w : RW) (st : ServeState) (b : Bytes) : ServeState :=
  match w with
  | .plain _ => { st with body := st.body ++ b }
  | .hijackable _ _ => { st with body := st.body ++ b }
  | .wrapped inner _ => rwWriteBody inner st b

/-- Run a handler, modelled as its sequence of response-writer actions. -/
def runHandler : List HAction → RW → ServeState → ServeState
  | [], _, st => st
  | .writeBody b :: as, w, st => runHandler as w (rwWriteBody w st b)
  | .doHijack :: as, w, st =>
      runHandler as w { st with session := (rwHijack w st.session).1 }

/-- `sniffer.ServeHTTP`: wrap the response writer through
`CallbackHijacker`, then delegate to the handler with the wrapped writer and
the original request. -/
def serveHTTP (handler : List HAction) (w : RW) (req : Nat) (st : ServeState) : ServeState :=
  runHandler handler (CallbackHijacker w req) st

/-- A quiescent connection used for concrete instances: empty scripts (reads
report end of stream, writes accept in full), nothing transmitted yet. -/
def conn0 : ConnState :=
  { rscript := [], wscript := [], written := [], closed := false, closeErr := none,
    localA := 10, remoteA := 20, rdl := 0, wdl := 0, dlErr := none }

/-- A sink that accepts every write in full, like an open pipe write end. -/
def emptySink : WState := { script := [], sunk := [] }

/-- A connection scripted to deliver "HI", a zero-length read, then "O" with
an end-of-stream error. -/
def fidConn : ConnState :=
  { conn0 with rscript := [([72, 73], none), ([], none), ([79], some .eofErr)] }

/-- Tee wrapper around `fidConn` with fully accepting sinks. -/
def fidTee : TeeState := { conn := fidConn, inS := emptySink, outS := emptySink }

/-- A concrete run mixing reads (including a zero-length and a single-byte
one) with writes (including an empty one). -/
def fidOps : List Op := [.read 1024, .write [79, 75], .read 1024, .read 1, .write []]

/-- A sink whose next write fails with error code 5 accepting nothing. -/
def sinkFail5 : WState := { script := [.part 0 (some (.errCode 5))], sunk := [] }

/-- Tee wrapper whose connection read succeeds with one byte but whose
inbound sink write fails. -/
def c2tee : TeeState :=
  { conn := { conn0 with rscript := [([7], none)] }, inS := sinkFail5, outS := emptySink }

/-- Tee wrapper whose connection accepts writes in full but whose outbound
sink write fails with error code 6. -/
def c2wtee : TeeState :=
  { conn := conn0, inS := emptySink,
    outS := { script := [.part 0 (some (.errCode 6))], sunk := [] } }

/-- Tee wrapper whose connection read delivers bytes together with error
code 1, and whose inbound sink write fails with error code 2. -/
def c9tee : TeeState :=
  { conn := { conn0 with rscript := [([5], some (.errCode 1))] },
    inS := { script := [.part 0 (some (.errCode 2))], sunk := [] }, outS := emptySink }

/-- Tee wrapper with a short-writing connection: the next connection write
accepts only one byte and reports no error. -/
def c10tee : TeeState :=
  { conn := { conn0 with wscript := [.part 1 none] }, inS := emptySink, outS := emptySink }

/-- Pipe-sink tee wrapper as installed by a fresh hijack. -/
def c8tee : TeePipeState := { conn := conn0, pin := freshPipe, pout := freshPipe }

/-- An underlying hijack call that succeeds. -/
def uhOk : UnderHijack := { conn := conn0, buf := 3, err := none }

/-- An underlying hijack call that fails with error code 9. -/
def uhErr : UnderHijack := { conn := conn0, buf := 4, err := some (.errCode 9) }

/-- An empty hijack session. -/
def sess0 : HSession := { pipes := [], events := [] }

/-- An empty serve state. -/
def serve0 : ServeState := { session := sess0, body := [] }

/- ------------------------------------------------------------------ -/
/- Helper lemmas.                                                      -/
/- ------------------------------------------------------------------ -/

lemma connRead_keeps_write_side (c : ConnState) (cap : Nat) :
    (connRead c cap).1.wscript = c.wscript ∧ (connRead c cap).1.written = c.written := by
  cases h : c.rscript with
  | nil => simp [connRead, h]
  | cons hd rest => cases hd; simp [connRead, h]

lemma teeRead_accepting (t : TeeState) (cap : Nat) (hi : t.inS.script = []) :
    (teeRead t cap).1.conn = (connRead t.conn cap).1 ∧
    (teeRead t cap).1.inS.script = [] ∧
    (teeRead t cap).1.inS.sunk = t.inS.sunk ++ (connRead t.conn cap).2.1 ∧
    (teeRead t cap).1.outS = t.outS := by
  by_cases h : (connRead t.conn cap).2.1.length > 0
  · simp [teeRead, h, wWrite, hi]
  · have hz : (connRead t.conn cap).2.1 = [] :=
      List.length_eq_zero.mp (Nat.eq_zero_of_not_pos h)
    simp [teeRead, h, hz, hi]

lemma teeWrite_accepting (t : TeeState) (p : Bytes) (hc : t.conn.wscript = [])
    (ho : t.outS.script = []) :
    (teeWrite t p).1.conn = (connWrite t.conn p).1 ∧
    (teeWrite t p).1.inS = t.inS ∧
    (teeWrite t p).1.outS.script = [] ∧
    (teeWrite t p).1.outS.sunk = t.outS.sunk ++ p ∧
    (teeWrite t p).2 = (p.length, none) := by
  simp [teeWrite, connWrite, wWrite, hc, ho]

lemma connWrite_nil_script (c : ConnState) (p : Bytes) (hc : c.wscript = []) :
    (connWrite c p).1 = { c with written := c.written ++ p } := by
  simp [connWrite, hc]

/-- Tee wrapper whose connection's next write fails with error code 3
accepting nothing, sinks fully accepting. -/
def c9wtee : TeeState :=
  { conn := { conn0 with wscript := [.part 0 (some (.errCode 3))] },
    inS := emptySink, outS := emptySink }

/-- Tee wrapper whose connection read delivers bytes together with error
code 1, sinks fully accepting. -/
def c9rtee : TeeState :=
  { conn := { conn0 with rscript := [([5], some (.errCode 1))] },
    inS := emptySink, outS := emptySink }

lemma rwWriteBody_wrap (w : RW) (req : Nat) (st : ServeState) (b : Bytes) :
    rwWriteBody (CallbackHijacker w req) st b = rwWriteBody w st b := by
  by_cases h : supportsHijack w
  · simp [CallbackHijacker, h, rwWriteBody]
  · simp [CallbackHijacker, h]

lemma rwWriteBody_session (w : RW) (st : ServeState) (b : Bytes) :
    (rwWriteBody w st b).session = st.session := by
  induction w generalizing st with
  | plain id => simp [rwWriteBody]
  | hijackable id u => simp [rwWriteBody]
  | wrapped inner req ih => simp [rwWriteBody, ih]

/- ------------------------------------------------------------------ -/
/- Claim theorems.                                                     -/
/- ------------------------------------------------------------------ -/

/-- Claim C1 (byte-fidelity): along any sequence of reads and writes through
the tee wrapper, provided the underlying connection accepts every write in
full and the sinks accept every write (as open pipe write ends do), the
inbound sink holds exactly, in order, the bytes the underlying connection's
reads returned, and the outbound sink holds exactly, in order, the bytes
written to the underlying connection — which coincide with the bytes the
connection actually transmitted.  Zero-length reads and empty writes
contribute nothing; no byte is dropped, reordered or duplicated. -/
theorem tee_byte_fidelity (ops : List Op) (t : TeeState)
    (hc : t.conn.wscript = []) (hi : t.inS.script = []) (ho : t.outS.script = []) :
    (runTee ops t).inS.sunk = t.inS.sunk ++ readTrace ops t.conn ∧
    (runTee ops t).outS.sunk = t.outS.sunk ++ writePayloads ops ∧
    (runTee ops t).conn.written = t.conn.written ++ writePayloads ops := by
  induction ops generalizing t with
  | nil => simp [runTee, readTrace, writePayloads]
  | cons op ops ih =>
    cases op with
    | read cap =>
      obtain ⟨h1, h2, h3, h4⟩ := teeRead_accepting t cap hi
      obtain ⟨hw1, hw2⟩ := connRead_keeps_write_side t.conn cap
      obtain ⟨g1, g2, g3⟩ := ih (teeRead t cap).1
        (by rw [h1, hw1]; exact hc) h2 (by rw [h4]; exact ho)
      simp only [runTee]
      refine ⟨?_, ?_, ?_⟩
      · rw [g1, h3, h1]
        simp [readTrace, List.append_assoc]
      · rw [g2, h4]
        simp [writePayloads]
      · rw [g3, h1, hw2]
        simp [writePayloads]
    | write p =>
      obtain ⟨h1, h2, h3, h4, h5⟩ := teeWrite_accepting t p hc ho
      have hcw := connWrite_nil_script t.conn p hc
      obtain ⟨g1, g2, g3⟩ := ih (teeWrite t p).1
        (by rw [h1, hcw]; exact hc) (by rw [h2]; exact hi) h3
      simp only [runTee]
      refine ⟨?_, ?_, ?_⟩
      · rw [g1, h2, h1]
        simp [readTrace]
      · rw [g2, h4]
        simp [writePayloads, List.append_assoc]
      · rw [g3, h1, hcw]
        simp [writePayloads, List.append_assoc]

/-- Witness for C1: the byte-fidelity theorem applied to a concrete run with
a two-byte read, a zero-length read, a single-byte read, a two-byte write
and an empty write. -/
theorem tee_byte_fidelity_witness :
    fidTee.conn.wscript = [] ∧ fidTee.inS.script = [] ∧ fidTee.outS.script = [] ∧
    ((runTee fidOps fidTee).inS.sunk = fidTee.inS.sunk ++ readTrace fidOps fidTee.conn ∧
     (runTee fidOps fidTee).outS.sunk = fidTee.outS.sunk ++ writePayloads fidOps ∧
     (runTee fidOps fidTee).conn.written = fidTee.conn.written ++ writePayloads fidOps) :=
  ⟨rfl, rfl, rfl, tee_byte_fidelity fidOps fidTee rfl rfl rfl⟩

/-- Claim C2, counterexample: a read on the tee wrapper whose underlying
connection read succeeds (one byte, no error) but whose inbound sink write
fails with error code 5 returns exactly that sink failure as the read's
error — the wrapper does not isolate sink failures. -/
theorem tee_sink_error_counterexample :
    (connRead c2tee.conn 1024).2.2 = none ∧
    (connRead c2tee.conn 1024).2.1 = [7] ∧
    (wWrite c2tee.inS [7]).2.2 = some (.errCode 5) ∧
    (teeRead c2tee 1024).2.2.2 = some (.errCode 5) := by decide

/-- Claim C2 as amended: when the underlying operation succeeds but the sink
write fails, the tee wrapper returns the sink's error as the operation's
error — on the read path (io.TeeReader) whenever the read delivered bytes,
and on the write path (io.MultiWriter) whenever the connection accepted the
buffer in full. -/
theorem tee_sink_error_returned (t : TeeState) (cap : Nat) (p : Bytes) (e f : StreamErr) :
    ((connRead t.conn cap).2.2 = none → (connRead t.conn cap).2.1 ≠ [] →
      (wWrite t.inS (connRead t.conn cap).2.1).2.2 = some e →
      (teeRead t cap).2.2.2 = some e) ∧
    ((connWrite t.conn p).2.2 = none → (connWrite t.conn p).2.1 = p.length →
      (wWrite t.outS p).2.2 = some f →
      (teeWrite t p).2.2 = some f) := by
  constructor
  · intro _ hne hw
    have hpos : (connRead t.conn cap).2.1.length > 0 := List.length_pos.mpr hne
    simp [teeRead, hpos, hw]
  · intro hcw hn hw
    simp [teeWrite, hcw, hn, hw]

/-- Witness for the amended C2: concrete sink failures surfacing as the
read's and the write's error. -/
theorem tee_sink_error_returned_witness :
    ((connRead c2tee.conn 1024).2.2 = none ∧ (connRead c2tee.conn 1024).2.1 ≠ [] ∧
      (wWrite c2tee.inS (connRead c2tee.conn 1024).2.1).2.2 = some (.errCode 5) ∧
      (teeRead c2tee 1024).2.2.2 = some (.errCode 5)) ∧
    ((connWrite c2wtee.conn [1]).2.2 = none ∧
      (connWrite c2wtee.conn [1]).2.1 = ([1] : Bytes).length ∧
      (wWrite c2wtee.outS [1]).2.2 = some (.errCode 6) ∧
      (teeWrite c2wtee [1]).2.2 = some (.errCode 6)) :=
  ⟨⟨by decide, by decide, by decide,
    (tee_sink_error_returned c2tee 1024 [1] (.errCode 5) (.errCode 6)).1
      (by decide) (by decide) (by decide)⟩,
   ⟨by decide, by decide, by decide,
    (tee_sink_error_returned c2wtee 1024 [1] (.errCode 5) (.errCode 6)).2
      (by decide) (by decide) (by decide)⟩⟩

/-- Claim C3: on a successful underlying hijack, `callbackHijacker.Hijack`
allocates two fresh pipes (at the first two unused indices), invokes the
observer callback exactly once — with the original request and the read ends
of exactly those pipes — and only afterwards returns the tee-wrapped
connection whose sinks are the write ends of the same pipes: the event trace
is exactly underlying-call, pipe allocation, callback, return, so the
callback completes strictly before the wrapped connection reaches the
caller. -/
theorem hijack_callback_once_before_return (req : Nat) (u : UnderHijack) (s : HSession)
    (h : u.err = none) :
    (hijack req u s).1.events =
      s.events ++ [.underCalled, .pipesAllocated s.pipes.length (s.pipes.length + 1),
        .callbackInvoked req s.pipes.length (s.pipes.length + 1),
        .returnedConn s.pipes.length (s.pipes.length + 1)] ∧
    (hijack req u s).1.pipes = s.pipes ++ [freshPipe, freshPipe] ∧
    (hijack req u s).2 =
      .okTee { conn := u.conn, pinId := s.pipes.length, poutId := s.pipes.length + 1 } u.buf := by
  simp [hijack, h]

/-- Witness for C3 at a concrete request and session. -/
theorem hijack_callback_once_before_return_witness :
    uhOk.err = none ∧
    ((hijack 42 uhOk sess0).1.events =
      sess0.events ++ [.underCalled,
        .pipesAllocated sess0.pipes.length (sess0.pipes.length + 1),
        .callbackInvoked 42 sess0.pipes.length (sess0.pipes.length + 1),
        .returnedConn sess0.pipes.length (sess0.pipes.length + 1)] ∧
     (hijack 42 uhOk sess0).1.pipes = sess0.pipes ++ [freshPipe, freshPipe] ∧
     (hijack 42 uhOk sess0).2 =
      .okTee { conn := uhOk.conn, pinId := sess0.pipes.length,
               poutId := sess0.pipes.length + 1 } uhOk.buf) :=
  ⟨rfl, hijack_callback_once_before_return 42 uhOk sess0 rfl⟩

/-- Claim C4: when the underlying hijack call fails,
`callbackHijacker.Hijack` returns the underlying connection, buffer and
error unchanged, allocates no pipes, and emits no callback event — only the
underlying call and the error return appear in the trace. -/
theorem hijack_error_passthrough (req : Nat) (u : UnderHijack) (s : HSession) (e : StreamErr)
    (h : u.err = some e) :
    (hijack req u s).2 = .failed u.conn u.buf e ∧
    (hijack req u s).1.pipes = s.pipes ∧
    (hijack req u s).1.events = s.events ++ [.underCalled, .returnedErr e] := by
  simp [hijack, h]

/-- Witness for C4 at a concrete failing underlying hijack. -/
theorem hijack_error_passthrough_witness :
    uhErr.err = some (.errCode 9) ∧
    ((hijack 7 uhErr sess0).2 = .failed uhErr.conn uhErr.buf (.errCode 9) ∧
     (hijack 7 uhErr sess0).1.pipes = sess0.pipes ∧
     (hijack 7 uhErr sess0).1.events = sess0.events ++ [.underCalled, .returnedErr (.errCode 9)]) :=
  ⟨rfl, hijack_error_passthrough 7 uhErr sess0 (.errCode 9) rfl⟩

/-- Claim C5: wrapping a response writer that does not implement
`http.Hijacker` returns the very same writer — the capability is not
fabricated, body writes behave identically, and a hijack attempt still finds
no capability (no session change, no result). -/
theorem callbackHijacker_passthrough (w : RW) (req : Nat)
    (h : supportsHijack w = false) :
    CallbackHijacker w req = w ∧
    supportsHijack (CallbackHijacker w req) = false ∧
    (∀ st b, rwWriteBody (CallbackHijacker w req) st b = rwWriteBody w st b) ∧
    (∀ s, rwHijack (CallbackHijacker w req) s = (s, none)) := by
  have hcw : CallbackHijacker w req = w := by simp [CallbackHijacker, h]
  cases w with
  | plain id =>
      exact ⟨hcw, by rw [hcw]; exact h, fun st b => by rw [hcw],
        fun s => by rw [hcw]; simp [rwHijack]⟩
  | hijackable id u => simp [supportsHijack] at h
  | wrapped inner r => simp [supportsHijack] at h

/-- Witness for C5 at a concrete plain response writer. -/
theorem callbackHijacker_passthrough_witness :
    supportsHijack (.plain 0) = false ∧
    (CallbackHijacker (.plain 0) 5 = .plain 0 ∧
     supportsHijack (CallbackHijacker (.plain 0) 5) = false ∧
     (∀ st b, rwWriteBody (CallbackHijacker (.plain 0) 5) st b = rwWriteBody (.plain 0) st b) ∧
     (∀ s, rwHijack (CallbackHijacker (.plain 0) 5) s = (s, none))) :=
  ⟨rfl, callbackHijacker_passthrough (.plain 0) 5 rfl⟩

/-- Claim C6 (no-tap-no-cost): serving a request through the middleware with
a handler that never calls `Hijack` leaves the hijack session untouched — no
observer callback event, no pipe allocation — and produces exactly the state
the unwrapped handler would produce: the wrapping is one capability check
and one delegation layer. -/
theorem sniffer_no_hijack_no_cost (handler : List HAction) (w : RW) (req : Nat)
    (st : ServeState) (h : HAction.doHijack ∉ handler) :
    serveHTTP handler w req st = runHandler handler w st ∧
    (serveHTTP handler w req st).session = st.session := by
  unfold serveHTTP
  induction handler generalizing st with
  | nil => exact ⟨rfl, rfl⟩
  | cons a as ih =>
    have h2 : HAction.doHijack ∉ as := fun hm => h (List.mem_cons_of_mem a hm)
    cases a with
    | writeBody b =>
        obtain ⟨g1, g2⟩ := ih (rwWriteBody (CallbackHijacker w req) st b) h2
        refine ⟨?_, ?_⟩
        · simp only [runHandler]
          rw [g1, rwWriteBody_wrap]
        · simp only [runHandler]
          rw [g2, rwWriteBody_session]
    | doHijack => exact absurd (List.mem_cons_self _ _) h

/-- Witness for C6: a handler that only writes the body, run against a
hijack-capable response writer through the middleware. -/
theorem sniffer_no_hijack_no_cost_witness :
    HAction.doHijack ∉ [HAction.writeBody [1, 2], HAction.writeBody [3]] ∧
    (serveHTTP [HAction.writeBody [1, 2], HAction.writeBody [3]] (.hijackable 0 uhOk) 11 serve0 =
      runHandler [HAction.writeBody [1, 2], HAction.writeBody [3]] (.hijackable 0 uhOk) serve0 ∧
     (serveHTTP [HAction.writeBody [1, 2], HAction.writeBody [3]]
        (.hijackable 0 uhOk) 11 serve0).session = serve0.session) :=
  ⟨by decide,
   sniffer_no_hijack_no_cost [HAction.writeBody [1, 2], HAction.writeBody [3]]
     (.hijackable 0 uhOk) 11 serve0 (by decide)⟩

/-- Claim C7: a read through the tee wrapper returns exactly the bytes the
underlying connection's read delivered, and — provided the inbound sink
accepts writes, as an open pipe write end does — the wrapper state in which
the call returns already holds all of those bytes in the inbound sink, with
the returned count equal to their number. -/
theorem tee_read_sink_before_return (t : TeeState) (cap : Nat)
    (hi : t.inS.script = []) :
    (teeRead t cap).2.1 = (connRead t.conn cap).2.1 ∧
    (teeRead t cap).1.inS.sunk = t.inS.sunk ++ (teeRead t cap).2.1 ∧
    (teeRead t cap).2.2.1 = (connRead t.conn cap).2.1.length := by
  by_cases h : (connRead t.conn cap).2.1.length > 0
  · simp [teeRead, h, wWrite, hi]
  · have hz : (connRead t.conn cap).2.1 = [] :=
      List.length_eq_zero.mp (Nat.eq_zero_of_not_pos h)
    simp [teeRead, h, hz, hi]

/-- Witness for C7 at a concrete read delivering two bytes. -/
theorem tee_read_sink_before_return_witness :
    fidTee.inS.script = [] ∧
    ((teeRead fidTee 1024).2.1 = (connRead fidTee.conn 1024).2.1 ∧
     (teeRead fidTee 1024).1.inS.sunk = fidTee.inS.sunk ++ (teeRead fidTee 1024).2.1 ∧
     (teeRead fidTee 1024).2.2.1 = (connRead fidTee.conn 1024).2.1.length) :=
  ⟨rfl, tee_read_sink_before_return fidTee 1024 rfl⟩

/-- Claim C8, counterexample: after the wrapped connection's close path runs
on a fresh hijack session (empty pipes, write ends open), a subsequent read
on either pipe's read end blocks — it returns neither end-of-stream nor an
error, because `teeConn`'s promoted `Close` touches only the underlying
socket and nothing ever closes the pipes' write ends. -/
theorem tee_close_pipe_read_blocks_counterexample :
    (teePipeClose c8tee).1.conn.closed = true ∧
    (pipeRead (teePipeClose c8tee).1.pin 1024).2 = .blocked ∧
    (pipeRead (teePipeClose c8tee).1.pout 1024).2 = .blocked ∧
    (pipeRead (teePipeClose c8tee).1.pin 1024).2 ≠ .eofEnd := by decide

/-- Claim C8 as amended: closing the wrapped connection closes only the
underlying socket; both pipes are left exactly as they were, so while a
pipe's buffer is drained and its write end open, a read on its read end
blocks instead of observing end-of-stream or an error. -/
theorem tee_close_leaves_pipes_open (t : TeePipeState) (cap : Nat)
    (hin : t.pin.buf = []) (hwin : t.pin.wclosed = false)
    (hout : t.pout.buf = []) (hwout : t.pout.wclosed = false) :
    (teePipeClose t).1.conn.closed = true ∧
    (teePipeClose t).1.pin = t.pin ∧
    (teePipeClose t).1.pout = t.pout ∧
    (pipeRead (teePipeClose t).1.pin cap).2 = .blocked ∧
    (pipeRead (teePipeClose t).1.pout cap).2 = .blocked := by
  simp [teePipeClose, connClose, pipeRead, hin, hwin, hout, hwout]

/-- Witness for the amended C8 on a fresh session. -/
theorem tee_close_leaves_pipes_open_witness :
    c8tee.pin.buf = [] ∧ c8tee.pin.wclosed = false ∧
    c8tee.pout.buf = [] ∧ c8tee.pout.wclosed = false ∧
    ((teePipeClose c8tee).1.conn.closed = true ∧
     (teePipeClose c8tee).1.pin = c8tee.pin ∧
     (teePipeClose c8tee).1.pout = c8tee.pout ∧
     (pipeRead (teePipeClose c8tee).1.pin 64).2 = .blocked ∧
     (pipeRead (teePipeClose c8tee).1.pout 64).2 = .blocked) :=
  ⟨rfl, rfl, rfl, rfl, tee_close_leaves_pipes_open c8tee 64 rfl rfl rfl rfl⟩

/-- Claim C9, counterexample: the underlying connection's read reports error
code 1 while delivering a byte, the inbound sink write fails with error code
2, and the tee wrapper returns the sink's error in place of the connection's
— the connection-level error is masked, so errors are not propagated
verbatim on every operation. -/
theorem tee_error_verbatim_counterexample :
    (connRead c9tee.conn 1024).2.2 = some (.errCode 1) ∧
    (teeRead c9tee 1024).2.2.2 = some (.errCode 2) ∧
    (teeRead c9tee 1024).2.2.2 ≠ (connRead c9tee.conn 1024).2.2 := by decide

/-- Claim C9 as amended: every stream operation other than read and write —
close, the address queries, the three deadline setters — delegates to the
underlying connection unchanged with its result (error included) returned
verbatim and the sinks untouched; a write error from the underlying
connection is returned verbatim with the underlying count; and a read error
from the underlying connection is returned verbatim whenever the inbound
sink write does not itself fail (if it does, io.TeeReader returns the sink's
error instead). -/
theorem tee_passthrough_verbatim (t : TeeState) (p : Bytes) (cap d : Nat) (e f : StreamErr) :
    teeClose t =
      ({ conn := (connClose t.conn).1, inS := t.inS, outS := t.outS }, (connClose t.conn).2) ∧
    teeLocalAddr t = connLocalAddr t.conn ∧
    teeRemoteAddr t = connRemoteAddr t.conn ∧
    teeSetDeadline t d =
      ({ conn := (connSetDeadline t.conn d).1, inS := t.inS, outS := t.outS },
        (connSetDeadline t.conn d).2) ∧
    teeSetReadDeadline t d =
      ({ conn := (connSetReadDeadline t.conn d).1, inS := t.inS, outS := t.outS },
        (connSetReadDeadline t.conn d).2) ∧
    teeSetWriteDeadline t d =
      ({ conn := (connSetWriteDeadline t.conn d).1, inS := t.inS, outS := t.outS },
        (connSetWriteDeadline t.conn d).2) ∧
    ((connWrite t.conn p).2.2 = some e →
      (teeWrite t p).2 = ((connWrite t.conn p).2.1, some e)) ∧
    ((connRead t.conn cap).2.2 = some f →
      (wWrite t.inS (connRead t.conn cap).2.1).2.2 = none →
      (teeRead t cap).2.2.2 = some f) := by
  refine ⟨rfl, rfl, rfl, rfl, rfl, rfl, ?_, ?_⟩
  · intro he
    simp [teeWrite, he]
  · intro hf hs
    by_cases h : (connRead t.conn cap).2.1.length > 0
    · simp [teeRead, h, hs, hf]
    · simp [teeRead, h, hf]

/-- Witness for the amended C9: a connection write error and a connection
read error each returned verbatim, and a concrete close delegation. -/
theorem tee_passthrough_verbatim_witness :
    ((connWrite c9wtee.conn [1, 2]).2.2 = some (.errCode 3) ∧
      (teeWrite c9wtee [1, 2]).2 = ((connWrite c9wtee.conn [1, 2]).2.1, some (.errCode 3))) ∧
    ((connRead c9rtee.conn 1024).2.2 = some (.errCode 1) ∧
      (wWrite c9rtee.inS (connRead c9rtee.conn 1024).2.1).2.2 = none ∧
      (teeRead c9rtee 1024).2.2.2 = some (.errCode 1)) ∧
    teeClose c9rtee =
      ({ conn := (connClose c9rtee.conn).1, inS := c9rtee.inS, outS := c9rtee.outS },
        (connClose c9rtee.conn).2) :=
  ⟨⟨by decide,
    (tee_passthrough_verbatim c9wtee [1, 2] 1024 0 (.errCode 3) (.errCode 1)).2.2.2.2.2.2.1
      (by decide)⟩,
   ⟨by decide, by decide,
    (tee_passthrough_verbatim c9rtee [1, 2] 1024 0 (.errCode 3) (.errCode 1)).2.2.2.2.2.2.2
      (by decide) (by decide)⟩,
   (tee_passthrough_verbatim c9rtee [1, 2] 1024 0 (.errCode 3) (.errCode 1)).1⟩

/-- Claim C10 (implicit short-write divergence): when the underlying
connection accepts only `n` of the buffer's bytes without reporting an
error, the tee wrapper returns `io.ErrShortWrite` with count `n`, the
outbound sink receives none of the bytes, and the connection's transmitted
trace has nevertheless grown by exactly those `n` bytes — the sink's view
diverges from the transmitted bytes. -/
theorem tee_short_write_divergence (t : TeeState) (p : Bytes) (n : Nat) (rest : List WResp)
    (_hp : p ≠ []) (hw : t.conn.wscript = .part n none :: rest) (hn : n < p.length) :
    (teeWrite t p).2 = (n, some .shortWrite) ∧
    (teeWrite t p).1.outS = t.outS ∧
    (teeWrite t p).1.conn.written = t.conn.written ++ p.take n ∧
    (p.take n).length = n := by
  have hmin : min n p.length = n := Nat.min_eq_left hn.le
  simp [teeWrite, connWrite, hw, hmin, hn]

/-- Witness for C10: a two-byte write of which the connection accepts only
the first byte. -/
theorem tee_short_write_divergence_witness :
    ([8, 9] : Bytes) ≠ [] ∧ c10tee.conn.wscript = [.part 1 none] ∧
    1 < ([8, 9] : Bytes).length ∧
    ((teeWrite c10tee [8, 9]).2 = (1, some .shortWrite) ∧
     (teeWrite c10tee [8, 9]).1.outS = c10tee.outS ∧
     (teeWrite c10tee [8, 9]).1.conn.written =
      c10tee.conn.written ++ ([8, 9] : Bytes).take 1 ∧
     (([8, 9] : Bytes).take 1).length = 1) :=
  ⟨by decide, rfl, by decide,
   tee_short_write_divergence c10tee [8, 9] 1 [] (by decide) rfl (by decide)⟩

end WsSniffer
